import Mathlib

/-!
A shallow embedding of the admission-controlled execution task pipeline of
the go-deepsandbox repository: the Redis-backed fixed-window counters
(RateLimitMiddleware, ExecutionQuotaMiddleware, TrackExecution in package
middleware), the quota fallback logic shared by ExecuteCode and the quota
middleware, the task-queue operations of package db (SubmitCodeExecution,
GetTaskStatus, CancelTask), and the execution controller handlers
(ExecuteCode's registry row, GetTaskStatus, CancelTask, processExecution).
Go ints and Unix timestamps are modelled as Int, the Redis keyspace as an
association list, and the per-task interleaving of the lifecycle driver
with cancellation as a small-step relation.
-/

namespace DeepSandbox

/-- The fields of config.Config consumed by the admission/execution core.
Go int fields become Int; the two window lengths are in seconds. -/
structure Config where
  rateLimitWindow : Int
  maxRequestsPerWindow : Int
  maxExecutionsPerDay : Int
  containerTimeout : Int
deriving Repr, DecidableEq

/-- One Redis value as used by the counters: an integer value together with
an optional absolute expiry instant in seconds (none means no TTL). -/
structure RedisEntry where
  value : Int
  expiry : Option Int
deriving Repr, DecidableEq

/-- The Redis keyspace, modelled as an association list from keys to entries. -/
abbrev RedisStore := List (String × RedisEntry)

/-- A key is live at time now when it carries no TTL or its expiry has not
yet been reached (Redis drops a key once its TTL elapses). -/
def liveEntry (now : Int) (e : RedisEntry) : Bool :=
  match e.expiry with
  | none => true
  | some t => now < t

/-- Raw lookup of a key's entry, expired or not. -/
def storeLookup (s : RedisStore) (key : String) : Option RedisEntry :=
  match s with
  | [] => none
  | (k, e) :: rest => if k = key then some e else storeLookup rest key

/-- Replace the entry for key, appending it if absent. -/
def storeWrite (s : RedisStore) (key : String) (e : RedisEntry) : RedisStore :=
  match s with
  | [] => [(key, e)]
  | (k, old) :: rest =>
      if k = key then (k, e) :: rest else (k, old) :: storeWrite rest key e

/-- GET key at time now: the integer value when the key is live. -/
def redisGet (s : RedisStore) (now : Int) (key : String) : Option Int :=
  match storeLookup s key with
  | none => none
  | some e => if liveEntry now e then some e.value else none

/-- SET key v with a TTL at time now (a non-positive TTL, as in go-redis,
stores the key without expiry). -/
def redisSet (s : RedisStore) (now : Int) (key : String) (v : Int) (ttl : Int) :
    RedisStore :=
  storeWrite s key ⟨v, if 0 < ttl then some (now + ttl) else none⟩

/-- INCR key at time now: increment a live key, keeping its TTL; an absent
or expired key is created with value 1 and no TTL. -/
def redisIncr (s : RedisStore) (now : Int) (key : String) : RedisStore :=
  match storeLookup s key with
  | some e =>
      if liveEntry now e then storeWrite s key ⟨e.value + 1, e.expiry⟩
      else storeWrite s key ⟨1, none⟩
  | none => storeWrite s key ⟨1, none⟩

/-- EXPIRE key ttl at time now: reset the TTL of a live key; no effect on an
absent or expired key. -/
def redisExpire (s : RedisStore) (now : Int) (key : String) (ttl : Int) :
    RedisStore :=
  match storeLookup s key with
  | some e =>
      if liveEntry now e then storeWrite s key ⟨e.value, some (now + ttl)⟩ else s
  | none => s

/-- The outcome of the redisClient.Get(ctx, key).Int() call as the
middleware branches on it: redis.Nil (key absent), a successfully read
count, or any other store error. -/
inductive RedisReply where
  | nilReply
  | intReply (v : Int)
  | errReply
deriving Repr, DecidableEq

/-- The reply the pure store model produces; it never errors by itself, so
errReply only enters as an injected store fault. -/
def redisGetReply (s : RedisStore) (now : Int) (key : String) : RedisReply :=
  match redisGet s now key with
  | none => RedisReply.nilReply
  | some v => RedisReply.intReply v

/-- The rate-limit key for an identity (Go format string "ratelimit:%s"). -/
def rateLimitKey (userID : String) : String := "ratelimit:" ++ userID

/-- Body of RateLimitMiddleware after the GET, given the reply obtained:
on redis.Nil create the window with count 1 and TTL RateLimitWindow and
admit; on a count, reject without incrementing when the count is at or
above MaxRequestsPerWindow, else INCR and admit; on any other error fall
through and admit. Returns the updated store and the admission verdict. -/
def rateLimitHandle (cfg : Config) (s : RedisStore) (now : Int) (key : String)
    (reply : RedisReply) : RedisStore × Bool :=
  match reply with
  | RedisReply.nilReply => (redisSet s now key 1 cfg.rateLimitWindow, true)
  | RedisReply.intReply count =>
      if count ≥ cfg.maxRequestsPerWindow then (s, false)
      else (redisIncr s now key, true)
  | RedisReply.errReply => (s, true)

/-- One fault-free pass of RateLimitMiddleware for key at time now. -/
def rateLimitStep (cfg : Config) (s : RedisStore) (now : Int) (key : String) :
    RedisStore × Bool :=
  rateLimitHandle cfg s now key (redisGetReply s now key)

/-- Run a sequence of requests through the rate limiter at the given times,
returning the final store and how many requests were admitted. -/
def rateLimitRun (cfg : Config) (key : String) (s : RedisStore) :
    List Int → RedisStore × Nat
  | [] => (s, 0)
  | t :: ts =>
      let p := rateLimitStep cfg s t key
      let q := rateLimitRun cfg key p.1 ts
      (q.1, (if p.2 then 1 else 0) + q.2)

/-- A user's quota blob as seen through json.Unmarshal into map[string]int:
empty (len(user.Quota) == 0), failing to unmarshal, or a parsed
key-to-integer mapping. -/
inductive QuotaBlob where
  | absent
  | malformed
  | parsed (m : List (String × Int))
deriving Repr, DecidableEq

/-- Lookup in the unmarshalled quota mapping. -/
def quotaLookup (m : List (String × Int)) (key : String) : Option Int :=
  match m with
  | [] => none
  | (k, v) :: rest => if k = key then some v else quotaLookup rest key

/-- The quota-override pattern shared by ExecuteCode and
ExecutionQuotaMiddleware: start from the system default; when the blob is
non-empty, unmarshals, and holds key with a positive value, use that value. -/
def effectiveLimit (blob : QuotaBlob) (key : String) (dflt : Int) : Int :=
  match blob with
  | QuotaBlob.parsed m =>
      match quotaLookup m key with
      | some v => if v > 0 then v else dflt
      | none => dflt
  | _ => dflt

/-- The fields of models.User consumed by the execution core. -/
structure User where
  id : String
  username : String
  roles : List String
  quota : QuotaBlob
deriving Repr, DecidableEq

/-- The admin-role scan the controllers repeat over user.Roles. -/
def isAdminRole (roles : List String) : Bool := roles.contains "admin"

/-- The daily execution-quota key (Go format string
"execution_quota:%s:%s" with the user id and the formatted calendar day). -/
def executionQuotaKey (userID day : String) : String :=
  "execution_quota:" ++ userID ++ ":" ++ day

/-- 24 hours in seconds, the TTL 24*time.Hour used for quota keys. -/
def dayTTL : Int := 24 * 3600

/-- Body of ExecutionQuotaMiddleware after the GET, given the reply: on
redis.Nil, SET the key to 1 with a 24h TTL and admit; on a count, compare
it against the effective max_executions_per_day limit, rejecting at or
above it and otherwise INCR and admitting; on other errors admit with the
store untouched. -/
def executionQuotaHandle (cfg : Config) (u : User) (s : RedisStore) (now : Int)
    (key : String) (reply : RedisReply) : RedisStore × Bool :=
  match reply with
  | RedisReply.nilReply => (redisSet s now key 1 dayTTL, true)
  | RedisReply.intReply count =>
      let maxExecutions :=
        effectiveLimit u.quota "max_executions_per_day" cfg.maxExecutionsPerDay
      if count ≥ maxExecutions then (s, false)
      else (redisIncr s now key, true)
  | RedisReply.errReply => (s, true)

/-- One fault-free pass of ExecutionQuotaMiddleware for user u on calendar
day at time now. -/
def executionQuotaStep (cfg : Config) (u : User) (day : String)
    (s : RedisStore) (now : Int) : RedisStore × Bool :=
  let key := executionQuotaKey u.id day
  executionQuotaHandle cfg u s now key (redisGetReply s now key)

/-- TrackExecution: INCR the day's quota key, then EXPIRE it to 24h. -/
def trackExecution (s : RedisStore) (now : Int) (userID day : String) :
    RedisStore :=
  let key := executionQuotaKey userID day
  redisExpire (redisIncr s now key) now key dayTTL

/-- The quota bookkeeping of one successful pass through POST /execute:
the quota-middleware gate followed, on admission, by ExecuteCode's
TrackExecution call. -/
def submitExecution (cfg : Config) (u : User) (day : String) (s : RedisStore)
    (now : Int) : RedisStore × Bool :=
  let p := executionQuotaStep cfg u day s now
  if p.2 then (trackExecution p.1 now u.id day, true) else (p.1, false)

/-- Run a same-day sequence of submissions at the given times, returning
the final store and the admission verdict of each submission in order. -/
def submitRun (cfg : Config) (u : User) (day : String) (s : RedisStore) :
    List Int → RedisStore × List Bool
  | [] => (s, [])
  | t :: ts =>
      let p := submitExecution cfg u day s t
      let q := submitRun cfg u day p.1 ts
      (q.1, p.2 :: q.2)

/-- ExecuteCode's effective per-task timeout cap: the user's
max_execution_time quota when positive, else ContainerTimeout. -/
def maxExecutionTime (cfg : Config) (u : User) : Int :=
  effectiveLimit u.quota "max_execution_time" cfg.containerTimeout

/-- ExecuteCode's timeout choice: the request's timeout when present,
positive and strictly below the cap; the cap otherwise. -/
def determineTimeout (cfg : Config) (u : User) (reqTimeout : Option Int) : Int :=
  let cap := maxExecutionTime cfg u
  match reqTimeout with
  | some t => if t > 0 && t < cap then t else cap
  | none => cap

/-- The models.CodeExecution registry row; float64 Unix timestamps are
whole seconds here. -/
structure CodeExecution where
  id : String
  userID : String
  datasetID : String
  code : String
  status : String
  results : String
  startTime : Int
  endTime : Int
  error : String
deriving Repr, DecidableEq

/-- The models.TaskStatus payload fields the queue populates; Results is a
nilable map in Go, modelled as an optional blob. -/
structure TaskStatus where
  taskID : String
  status : String
  progress : Int
  results : Option String
  error : String
deriving Repr, DecidableEq

/-- db.TaskQueue.GetTaskStatus: always reports status "pending" with
progress 0 and no results or error, whatever the task's actual state. -/
def queueGetTaskStatus (taskID : String) : TaskStatus :=
  { taskID := taskID, status := "pending", progress := 0,
    results := none, error := "" }

/-- db.TaskQueue.CancelTask: returns true unconditionally, for any task id
and requester. -/
def queueCancelTask (_taskID _userID : String) : Bool := true

/-- The task table, keyed by the CodeExecution primary key. -/
abbrev TaskDB := List CodeExecution

/-- Fetch a row by primary key (gorm First with an id filter). -/
def dbFind (db : TaskDB) (taskID : String) : Option CodeExecution :=
  match db with
  | [] => none
  | e :: rest => if e.id = taskID then some e else dbFind rest taskID

/-- gorm Save: full-record overwrite of the row with the record's primary
key (last-writer-wins), inserting it if absent. -/
def dbSave (db : TaskDB) (e : CodeExecution) : TaskDB :=
  match db with
  | [] => [e]
  | x :: rest => if x.id = e.id then e :: rest else x :: dbSave rest e

/-- The fresh row ExecuteCode inserts before queue submission: status
"queued", empty results and error, zero timestamps. -/
def newExecution (id userID datasetID code : String) : CodeExecution :=
  { id := id, userID := userID, datasetID := datasetID, code := code,
    status := "queued", results := "", startTime := 0, endTime := 0,
    error := "" }

/-- ExecutionController.GetTaskStatus: 404 when the row is missing, 403
when the requester is neither the owner nor an admin, otherwise 200 with
the queue's status payload. The handler never writes the registry, so it
returns the table unchanged. -/
def getTaskStatus (db : TaskDB) (u : User) (taskID : String) :
    Nat × TaskDB × Option TaskStatus :=
  match dbFind db taskID with
  | none => (404, db, none)
  | some execution =>
      if execution.userID != u.id && !(isAdminRole u.roles) then (403, db, none)
      else (200, db, some (queueGetTaskStatus taskID))

/-- The registry write performed on a successful cancel: status
"cancelled" and the end time stamped; results and error untouched. -/
def cancelWrite (e : CodeExecution) (now : Int) : CodeExecution :=
  { e with status := "cancelled", endTime := now }

/-- ExecutionController.CancelTask: 404 when the row is missing, 403 for a
non-owner non-admin, 400 when the queue refuses, and otherwise the
cancelled row is saved and 200 returned. The current status of the row is
never consulted. -/
def cancelTask (db : TaskDB) (u : User) (taskID : String) (now : Int) :
    Nat × TaskDB :=
  match dbFind db taskID with
  | none => (404, db)
  | some execution =>
      if execution.userID != u.id && !(isAdminRole u.roles) then (403, db)
      else if queueCancelTask taskID u.username then
        (200, dbSave db (cancelWrite execution now))
      else (400, db)

/-- The JSON blob processExecution stores on completion. -/
def completionResults : String :=
  "\x7b\"result\": \"Execution completed successfully.\"\x7d"

/-- The driver's first write: status "running" with the start time stamped. -/
def runningWrite (e : CodeExecution) (now : Int) : CodeExecution :=
  { e with status := "running", startTime := now }

/-- The driver's second write: status "completed" with the end time stamped
and the results blob stored. -/
def completedWrite (e : CodeExecution) (now : Int) : CodeExecution :=
  { e with
    status := "completed"
    endTime := now
    results := completionResults }

/-- ExecutionController.processExecution: load the row (aborting silently
when absent), save it as running, then — from its own local copy — save it
as completed. No status is re-checked before either save. -/
def processExecution (db : TaskDB) (taskID : String) (t1 t2 : Int) : TaskDB :=
  match dbFind db taskID with
  | none => db
  | some execution =>
      let r := runningWrite execution t1
      dbSave (dbSave db r) (completedWrite r t2)

/-- Where the lifecycle driver of one task stands: not yet loaded, holding
its loaded local copy, past its running-save with that local copy, or done. -/
inductive DriverPhase where
  | idle
  | loaded (e : CodeExecution)
  | ran (e : CodeExecution)
  | done
deriving Repr, DecidableEq

/-- The registry row of one task together with its driver's phase. -/
structure TaskSystem where
  row : CodeExecution
  driver : DriverPhase
deriving Repr, DecidableEq

/-- Interleaved small steps over one task: the driver's load and its two
saves (each persisting the driver's local copy, exactly as processExecution
does), and a successful owner/admin cancel, which always succeeds against
the stub queue and overwrites whatever status the row currently has. -/
inductive TaskStep : TaskSystem → TaskSystem → Prop where
  | load (row : CodeExecution) :
      TaskStep ⟨row, DriverPhase.idle⟩ ⟨row, DriverPhase.loaded row⟩
  | saveRunning (row e : CodeExecution) (t : Int) :
      TaskStep ⟨row, DriverPhase.loaded e⟩
        ⟨runningWrite e t, DriverPhase.ran (runningWrite e t)⟩
  | saveCompleted (row e : CodeExecution) (t : Int) :
      TaskStep ⟨row, DriverPhase.ran e⟩ ⟨completedWrite e t, DriverPhase.done⟩
  | cancel (row : CodeExecution) (d : DriverPhase) (t : Int) :
      TaskStep ⟨row, d⟩ ⟨cancelWrite row t, d⟩

/-- Reachability of system states from an initial state. -/
inductive TaskReach (s0 : TaskSystem) : TaskSystem → Prop where
  | refl : TaskReach s0 s0
  | step {s t : TaskSystem} : TaskReach s0 s → TaskStep s t → TaskReach s0 t

/-- The statuses the spec calls terminal. -/
def isTerminalStatus (st : String) : Bool :=
  st == "completed" || st == "failed" || st == "cancelled"

/-- Exactly one of the results blob and the error string is non-empty. -/
def exactlyOneOutcome (e : CodeExecution) : Bool :=
  (e.results != "" && e.error == "") || (e.results == "" && e.error != "")

/-- Row facts holding before the driver's completed-save: empty results
and error, and one of the three pre-completion statuses. -/
def preRow (e : CodeExecution) : Prop :=
  e.results = "" ∧ e.error = "" ∧
  (e.status = "queued" ∨ e.status = "running" ∨ e.status = "cancelled")

/-- Facts about a driver-local copy: it was captured before any
completed-save, so its results and error are empty. -/
def localCopy (e : CodeExecution) : Prop := e.results = "" ∧ e.error = ""

/-- The inductive invariant of the single-task system: before the driver's
completed-save the row satisfies preRow and any local copy is outcome-free;
afterwards the row carries the completion results, an empty error, and a
completed or cancelled status. -/
def sysInv (s : TaskSystem) : Prop :=
  match s.driver with
  | DriverPhase.idle => preRow s.row
  | DriverPhase.loaded e => preRow s.row ∧ localCopy e
  | DriverPhase.ran e => preRow s.row ∧ localCopy e
  | DriverPhase.done =>
      s.row.error = "" ∧ s.row.results = completionResults ∧
      (s.row.status = "completed" ∨ s.row.status = "cancelled")

/-- Every task step preserves the system invariant. -/
theorem sysInv_step {s t : TaskSystem} (hst : TaskStep s t) (hs : sysInv s) :
    sysInv t := by
  cases hst with
  | load row => exact ⟨hs, hs.1, hs.2.1⟩
  | saveRunning row e tt =>
      exact ⟨⟨hs.2.1, hs.2.2, Or.inr (Or.inl rfl)⟩, hs.2.1, hs.2.2⟩
  | saveCompleted row e tt => exact ⟨hs.2.2, rfl, Or.inl rfl⟩
  | cancel row d tt =>
      cases d with
      | idle => exact ⟨hs.1, hs.2.1, Or.inr (Or.inr rfl)⟩
      | loaded e => exact ⟨⟨hs.1.1, hs.1.2.1, Or.inr (Or.inr rfl)⟩, hs.2⟩
      | ran e => exact ⟨⟨hs.1.1, hs.1.2.1, Or.inr (Or.inr rfl)⟩, hs.2⟩
      | done => exact ⟨hs.1, hs.2.1, Or.inr rfl⟩

/-- The invariant holds at every reachable state once it holds initially. -/
theorem sysInv_reach {s0 s : TaskSystem} (h0 : sysInv s0)
    (hr : TaskReach s0 s) : sysInv s := by
  induction hr with
  | refl => exact h0
  | step _ hst ih => exact sysInv_step hst ih

/-- The amended outcome conclusions follow from preRow. -/
theorem preRow_conclusions {row : CodeExecution} (h : preRow row) :
    ((row.status = "queued" ∨ row.status = "running") →
      row.results = "" ∧ row.error = "") ∧
    (row.status = "completed" → row.results ≠ "" ∧ row.error = "") ∧
    (row.status = "cancelled" → row.error = "") ∧
    row.status ≠ "failed" := by
  obtain ⟨h1, h2, h3⟩ := h
  refine ⟨fun _ => ⟨h1, h2⟩, ?_, fun _ => h2, ?_⟩
  · intro hc
    exfalso
    rcases h3 with h | h | h <;> exact absurd (hc.symm.trans h) (by decide)
  · intro hf
    rcases h3 with h | h | h <;> exact absurd (hf.symm.trans h) (by decide)

/-- The amended outcome conclusions follow from the done-phase facts. -/
theorem doneRow_conclusions {row : CodeExecution} (h1 : row.error = "")
    (h2 : row.results = completionResults)
    (h3 : row.status = "completed" ∨ row.status = "cancelled") :
    ((row.status = "queued" ∨ row.status = "running") →
      row.results = "" ∧ row.error = "") ∧
    (row.status = "completed" → row.results ≠ "" ∧ row.error = "") ∧
    (row.status = "cancelled" → row.error = "") ∧
    row.status ≠ "failed" := by
  refine ⟨?_, fun _ => ⟨?_, h1⟩, fun _ => h1, ?_⟩
  · intro hqr
    exfalso
    rcases h3 with h | h <;> rcases hqr with hq | hq <;>
      exact absurd (hq.symm.trans h) (by decide)
  · rw [h2]; decide
  · intro hf
    rcases h3 with h | h <;> exact absurd (hf.symm.trans h) (by decide)

/-- Writing a key and looking it up again yields the written entry. -/
theorem storeLookup_storeWrite (s : RedisStore) (key : String)
    (e : RedisEntry) : storeLookup (storeWrite s key e) key = some e := by
  induction s with
  | nil => simp [storeWrite, storeLookup]
  | cons kv rest ih =>
      obtain ⟨k, old⟩ := kv
      by_cases h : k = key <;> simp [storeWrite, storeLookup, h, ih]

/-- Counting admissions against an existing live window: the number
admitted over in-window request times is the remaining room below the
limit, capped by the number of requests. -/
theorem rateLimitRun_window_count (cfg : Config) (key : String) (e : Int)
    (ts : List Int) :
    ∀ (s : RedisStore) (c : Int),
      storeLookup s key = some ⟨c, some e⟩ → (∀ t ∈ ts, t < e) →
      (rateLimitRun cfg key s ts).2
        = min ts.length (cfg.maxRequestsPerWindow - c).toNat := by
  induction ts with
  | nil => intro s c _ _; simp [rateLimitRun]
  | cons t ts ih =>
      intro s c hs hts
      have hlive : liveEntry t ⟨c, some e⟩ = true := by
        simp only [liveEntry, decide_eq_true_eq]
        exact hts t (by simp)
      have hget : redisGetReply s t key = RedisReply.intReply c := by
        simp [redisGetReply, redisGet, hs, hlive]
      by_cases hc : c ≥ cfg.maxRequestsPerWindow
      · have hstep : rateLimitStep cfg s t key = (s, false) := by
          simp [rateLimitStep, hget, rateLimitHandle, hc]
        have hrest := ih s c hs (fun x hx => hts x (by simp [hx]))
        simp only [rateLimitRun, hstep, hrest, List.length_cons,
          Bool.false_eq_true, if_false]
        omega
      · have hincr : redisIncr s t key = storeWrite s key ⟨c + 1, some e⟩ := by
          simp [redisIncr, hs, hlive]
        have hstep : rateLimitStep cfg s t key
            = (storeWrite s key ⟨c + 1, some e⟩, true) := by
          simp [rateLimitStep, hget, rateLimitHandle, hc, hincr]
        have hrest := ih (storeWrite s key ⟨c + 1, some e⟩) (c + 1)
          (storeLookup_storeWrite s key ⟨c + 1, some e⟩)
          (fun x hx => hts x (by simp [hx]))
        simp only [rateLimitRun, hstep, hrest, List.length_cons, if_true]
        omega

/-- C1: the daily execution counter does not admit L submissions per day.
With max_executions_per_day = 2 and an empty store, the first same-day
submission is admitted but the second is rejected: the quota middleware
seeds the counter at 1 and TrackExecution increments it again on the same
admission, so the count read before the second submission already equals
the limit. The claim requires both submissions (N = L = 2) admitted. -/
theorem C1_quota_double_count_rejects_second :
    (submitRun ⟨60, 100, 1000, 300⟩
        ⟨"u1", "alice", [], QuotaBlob.parsed [("max_executions_per_day", 2)]⟩
        "2024-01-01" [] [0, 10]).2 = [true, false] := by decide

/-- C2: terminal statuses are not absorbing. The driver, run on a row
already marked cancelled, saves it as running and then completed; and a
DELETE on a completed task answers 200 and overwrites the row with status
cancelled. Both transitions leave a terminal state, and the driver
performs status writes instead of observing the cancelled status. -/
theorem C2_terminal_not_absorbing :
    (dbFind (processExecution
        [cancelWrite (newExecution "t1" "u1" "d1" "print(1)") 5] "t1" 10 12)
        "t1").map CodeExecution.status = some "completed" ∧
    (cancelTask [completedWrite (newExecution "t1" "u1" "d1" "print(1)") 8]
        ⟨"u1", "alice", [], QuotaBlob.absent⟩ "t1" 9).1 = 200 ∧
    (dbFind (cancelTask
        [completedWrite (newExecution "t1" "u1" "d1" "print(1)") 8]
        ⟨"u1", "alice", [], QuotaBlob.absent⟩ "t1" 9).2
        "t1").map CodeExecution.status = some "cancelled" := by decide

/-- C3: cancel does not return true only for cancellable tasks. The queue's
CancelTask returns true even for a task id that exists nowhere, and a
second cancel of an already-cancelled task again succeeds at the queue and
answers HTTP 200, where the claim requires false (HTTP 400). -/
theorem C3_cancel_stub_returns_true :
    queueCancelTask "no-such-task" "alice" = true ∧
    (cancelTask [cancelWrite (newExecution "t1" "u1" "d1" "print(1)") 5]
        ⟨"u1", "alice", [], QuotaBlob.absent⟩ "t1" 9).1 = 200 := by decide

/-- C4: GET /tasks/{task_id} never reports the task's current status. For
the owner of a freshly queued task the payload reads status "pending", and
after the driver has completed the task it still reads "pending" with no
results, where the claim requires "queued"/"running" and then "completed"
with non-empty results. -/
theorem C4_status_always_pending :
    (getTaskStatus [newExecution "t1" "u1" "d1" "print(1)"]
        ⟨"u1", "alice", [], QuotaBlob.absent⟩ "t1").2.2
      = some ⟨"t1", "pending", 0, none, ""⟩ ∧
    (getTaskStatus [completedWrite (newExecution "t1" "u1" "d1" "print(1)") 8]
        ⟨"u1", "alice", [], QuotaBlob.absent⟩ "t1").2.2
      = some ⟨"t1", "pending", 0, none, ""⟩ ∧
    (queueGetTaskStatus "t1").status ≠ "queued" ∧
    (queueGetTaskStatus "t1").status ≠ "running" ∧
    (queueGetTaskStatus "t1").status ≠ "completed" := by decide

/-- C6: the execution-quota window's expiry is extended by increments. A
window created at time 0 carries expiry 86400, but TrackExecution follows
every increment with an unconditional EXPIRE, so the second admitted
same-day submission at time 100 moves the expiry to 86500. -/
theorem C6_track_execution_extends_expiry :
    storeLookup (submitRun ⟨60, 100, 1000, 300⟩
        ⟨"u1", "alice", [], QuotaBlob.absent⟩ "2024-01-01" [] [0]).1
        (executionQuotaKey "u1" "2024-01-01") = some ⟨2, some 86400⟩ ∧
    storeLookup (submitRun ⟨60, 100, 1000, 300⟩
        ⟨"u1", "alice", [], QuotaBlob.absent⟩ "2024-01-01" [] [0, 100]).1
        (executionQuotaKey "u1" "2024-01-01") = some ⟨4, some 86500⟩ := by
  decide

/-- C10: the rate limiter fails open on store errors. When the counter read
returns any error other than redis.Nil, the middleware admits the request
with the store untouched: no counter is created or incremented. -/
theorem C10_rate_limiter_fails_open (cfg : Config) (s : RedisStore)
    (now : Int) (key : String) :
    rateLimitHandle cfg s now key RedisReply.errReply = (s, true) := rfl

/-- C5: the fixed-window request rate limiter. For a key with no window,
the first request creates the window with count 1 and expiry
T + RateLimitWindow and is admitted; a request reading count c is rejected
without touching the store when c is at or above MaxRequestsPerWindow and
is admitted with an increment when c is below it; and over the first
request plus any further requests inside [T, T + window), the number
admitted is the limit, capped by the number of requests. -/
theorem C5_rate_limiter_fixed_window (cfg : Config) (key : String)
    (s0 : RedisStore) (T : Int) (ts : List Int)
    (hL : 1 ≤ cfg.maxRequestsPerWindow)
    (hW : 0 < cfg.rateLimitWindow)
    (h0 : storeLookup s0 key = none)
    (hts : ∀ t ∈ ts, T ≤ t ∧ t < T + cfg.rateLimitWindow) :
    rateLimitStep cfg s0 T key
        = (storeWrite s0 key ⟨1, some (T + cfg.rateLimitWindow)⟩, true) ∧
    (∀ (s : RedisStore) (now c : Int), cfg.maxRequestsPerWindow ≤ c →
      rateLimitHandle cfg s now key (RedisReply.intReply c) = (s, false)) ∧
    (∀ (s : RedisStore) (now c : Int), c < cfg.maxRequestsPerWindow →
      rateLimitHandle cfg s now key (RedisReply.intReply c)
        = (redisIncr s now key, true)) ∧
    (rateLimitRun cfg key s0 (T :: ts)).2
        = min (ts.length + 1) cfg.maxRequestsPerWindow.toNat := by
  have hfirst : rateLimitStep cfg s0 T key
      = (storeWrite s0 key ⟨1, some (T + cfg.rateLimitWindow)⟩, true) := by
    simp [rateLimitStep, redisGetReply, redisGet, h0, rateLimitHandle,
      redisSet, hW]
  refine ⟨hfirst, ?_, ?_, ?_⟩
  · intro s now c hc
    simp [rateLimitHandle, hc]
  · intro s now c hc
    simp [rateLimitHandle, not_le.mpr hc]
  · have hrest := rateLimitRun_window_count cfg key
      (T + cfg.rateLimitWindow) ts
      (storeWrite s0 key ⟨1, some (T + cfg.rateLimitWindow)⟩) 1
      (storeLookup_storeWrite s0 key ⟨1, some (T + cfg.rateLimitWindow)⟩)
      (fun t ht => (hts t ht).2)
    simp only [rateLimitRun, hfirst, hrest, List.length_cons, if_true]
    omega

/-- C5 witness: with limit 2 and window 60, a count of 2 is rejected, and
of four in-window requests starting at an absent key exactly two are
admitted. -/
theorem C5_rate_limiter_fixed_window_witness :
    rateLimitHandle ⟨60, 2, 1000, 300⟩ [] 0 "ratelimit:u1"
        (RedisReply.intReply 2) = ([], false) ∧
    (rateLimitRun ⟨60, 2, 1000, 300⟩ "ratelimit:u1" [] [0, 10, 20, 30]).2
        = 2 := by
  obtain ⟨h1, h2, h3, h4⟩ := C5_rate_limiter_fixed_window ⟨60, 2, 1000, 300⟩
    "ratelimit:u1" [] 0 [10, 20, 30] (by decide) (by decide) (by decide)
    (by decide)
  exact ⟨h2 [] 0 2 (by decide), h4.trans (by decide)⟩

/-- C7 counterexample: a single successful cancel of a freshly submitted
task reaches a row whose status is the terminal "cancelled" while results
and error are both empty, so neither of the two outcome fields is
non-empty in a terminal status. -/
theorem C7_cancelled_with_no_outcome :
    TaskReach ⟨newExecution "t1" "u1" "d1" "print(1)", DriverPhase.idle⟩
      ⟨cancelWrite (newExecution "t1" "u1" "d1" "print(1)") 5,
        DriverPhase.idle⟩ ∧
    isTerminalStatus
        (cancelWrite (newExecution "t1" "u1" "d1" "print(1)") 5).status
      = true ∧
    exactlyOneOutcome (cancelWrite (newExecution "t1" "u1" "d1" "print(1)") 5)
      = false :=
  ⟨TaskReach.step TaskReach.refl (TaskStep.cancel _ _ 5), by decide, by decide⟩

/-- C7 amended: over every state reachable from a fresh submission through
the driver's saves and successful cancels, the registry row satisfies:
while queued or running, results and error are both empty; once completed,
the results blob is non-empty and the error empty; a cancelled row always
has an empty error — cancellation records no outcome and preserves what is
already there, so its results are empty when cancelled from queued or
running and non-empty only when a completed row was overwritten; and the
status "failed" is never reached. -/
theorem C7_outcome_invariant_amended (id uid did code : String)
    (s : TaskSystem)
    (hr : TaskReach ⟨newExecution id uid did code, DriverPhase.idle⟩ s) :
    ((s.row.status = "queued" ∨ s.row.status = "running") →
      s.row.results = "" ∧ s.row.error = "") ∧
    (s.row.status = "completed" → s.row.results ≠ "" ∧ s.row.error = "") ∧
    (s.row.status = "cancelled" → s.row.error = "") ∧
    s.row.status ≠ "failed" := by
  have h0 : sysInv ⟨newExecution id uid did code, DriverPhase.idle⟩ :=
    ⟨rfl, rfl, Or.inl rfl⟩
  have hinv := sysInv_reach h0 hr
  obtain ⟨row, d⟩ := s
  cases d with
  | idle => exact preRow_conclusions hinv
  | loaded e => exact preRow_conclusions hinv.1
  | ran e => exact preRow_conclusions hinv.1
  | done => exact doneRow_conclusions hinv.1 hinv.2.1 hinv.2.2

/-- C7 amended witness: the invariant instantiated at the state reached by
cancelling a fresh task. -/
theorem C7_outcome_invariant_amended_witness :
    (((cancelWrite (newExecution "t2" "u1" "d1" "x") 5).status = "queued" ∨
        (cancelWrite (newExecution "t2" "u1" "d1" "x") 5).status
          = "running") →
      (cancelWrite (newExecution "t2" "u1" "d1" "x") 5).results = "" ∧
      (cancelWrite (newExecution "t2" "u1" "d1" "x") 5).error = "") ∧
    ((cancelWrite (newExecution "t2" "u1" "d1" "x") 5).status = "completed" →
      (cancelWrite (newExecution "t2" "u1" "d1" "x") 5).results ≠ "" ∧
      (cancelWrite (newExecution "t2" "u1" "d1" "x") 5).error = "") ∧
    ((cancelWrite (newExecution "t2" "u1" "d1" "x") 5).status = "cancelled" →
      (cancelWrite (newExecution "t2" "u1" "d1" "x") 5).error = "") ∧
    (cancelWrite (newExecution "t2" "u1" "d1" "x") 5).status ≠ "failed" :=
  C7_outcome_invariant_amended "t2" "u1" "d1" "x"
    ⟨cancelWrite (newExecution "t2" "u1" "d1" "x") 5, DriverPhase.idle⟩
    (TaskReach.step TaskReach.refl (TaskStep.cancel _ _ 5))

/-- C8: a non-owner, non-admin requester receives 403 from both
GET /tasks/{task_id} and DELETE /tasks/{task_id} on an existing task, and
both handlers return the task table unchanged. -/
theorem C8_non_owner_forbidden (db : TaskDB) (u : User) (taskID : String)
    (execution : CodeExecution) (now : Int)
    (hfind : dbFind db taskID = some execution)
    (howner : execution.userID ≠ u.id)
    (hadmin : isAdminRole u.roles = false) :
    getTaskStatus db u taskID = (403, db, none) ∧
    cancelTask db u taskID now = (403, db) := by
  have hb : (execution.userID != u.id) = true := by
    simp [bne_iff_ne, howner]
  exact ⟨by simp [getTaskStatus, hfind, hb, hadmin],
    by simp [cancelTask, hfind, hb, hadmin]⟩

/-- C8 witness: user u2 without the admin role queries and cancels u1's
task and receives 403 both times, with the table unchanged. -/
theorem C8_non_owner_forbidden_witness :
    getTaskStatus [newExecution "t1" "u1" "d1" "x"]
        ⟨"u2", "bob", ["user"], QuotaBlob.absent⟩ "t1"
      = (403, [newExecution "t1" "u1" "d1" "x"], none) ∧
    cancelTask [newExecution "t1" "u1" "d1" "x"]
        ⟨"u2", "bob", ["user"], QuotaBlob.absent⟩ "t1" 9
      = (403, [newExecution "t1" "u1" "d1" "x"]) :=
  C8_non_owner_forbidden [newExecution "t1" "u1" "d1" "x"]
    ⟨"u2", "bob", ["user"], QuotaBlob.absent⟩ "t1"
    (newExecution "t1" "u1" "d1" "x") 9 (by decide) (by decide) (by decide)

/-- C9: an absent quota blob, or one that fails to unmarshal, never causes
a rejection of its own: the daily-execution limit falls back to
MaxExecutionsPerDay, the timeout cap falls back to ContainerTimeout, and
the quota middleware behaves exactly as it does for a user carrying no
quota blob at all. -/
theorem C9_malformed_quota_fallback (cfg : Config) (u : User)
    (hq : u.quota = QuotaBlob.absent ∨ u.quota = QuotaBlob.malformed) :
    effectiveLimit u.quota "max_executions_per_day" cfg.maxExecutionsPerDay
        = cfg.maxExecutionsPerDay ∧
    maxExecutionTime cfg u = cfg.containerTimeout ∧
    ∀ (s : RedisStore) (now : Int) (key : String) (reply : RedisReply),
      executionQuotaHandle cfg u s now key reply
        = executionQuotaHandle cfg { u with quota := QuotaBlob.absent } s now
            key reply := by
  have he : ∀ (key : String) (dflt : Int), effectiveLimit u.quota key dflt
      = dflt := by
    rcases hq with h | h <;> intro key dflt <;> simp [h, effectiveLimit]
  refine ⟨he _ _, ?_, ?_⟩
  · simp [maxExecutionTime, he]
  · intro s now key reply
    cases reply <;> first
      | rfl
      | (simp only [executionQuotaHandle, he]; simp [effectiveLimit])

/-- C9 witness: the fallbacks and the middleware equivalence instantiated
for a user whose quota blob does not unmarshal. -/
theorem C9_malformed_quota_fallback_witness :
    effectiveLimit QuotaBlob.malformed "max_executions_per_day" 1000
        = 1000 ∧
    maxExecutionTime ⟨60, 100, 1000, 300⟩
        ⟨"u1", "alice", [], QuotaBlob.malformed⟩ = 300 ∧
    executionQuotaHandle ⟨60, 100, 1000, 300⟩
        ⟨"u1", "alice", [], QuotaBlob.malformed⟩ [] 0 "k"
        (RedisReply.intReply 5)
      = executionQuotaHandle ⟨60, 100, 1000, 300⟩
          ⟨"u1", "alice", [], QuotaBlob.absent⟩ [] 0 "k"
          (RedisReply.intReply 5) := by
  obtain ⟨h1, h2, h3⟩ := C9_malformed_quota_fallback ⟨60, 100, 1000, 300⟩
    ⟨"u1", "alice", [], QuotaBlob.malformed⟩ (Or.inr rfl)
  exact ⟨h1, h2, h3 [] 0 "k" (RedisReply.intReply 5)⟩

end DeepSandbox
